import Mathlib

/-! Verification of the speech-recognition checkpoint app (src/app.py).

Audio file bytes are modelled as `List Int`.  The external pydub library
(WAV decoding, resampling, channel down-mix, WAV export) is modelled by
concrete executable functions; the external recognition services and the
auto-detecting decoder are parameters collected in `Env`.  Side effects
(temporary files, backend invocations) are threaded through an explicit
state `St` that also records a ghost event trace. -/

/-- Raw audio file bytes. -/
abbrev Bytes := List Int

/-- Model of a pydub AudioSegment: sample rate in Hz, channel count and
interleaved sample data. -/
structure AudioSegment where
  frame_rate : Nat
  channels : Nat
  samples : List Int
  deriving DecidableEq

deriving instance DecidableEq for Except

/-- Channel down-mix to mono (pydub set_channels(1) internals): each frame
of `c` interleaved samples is replaced by their average (integer division);
a trailing incomplete frame is dropped. -/
def monoMix (c : Nat) (xs : List Int) : List Int :=
  if h : c = 0 ∨ xs.length < c then []
  else ((xs.take c).foldl (· + ·) 0) / (c : Int) :: monoMix c (xs.drop c)
termination_by xs.length
decreasing_by
  simp only [List.length_drop]
  omega

/-- pydub set_channels.  The app only ever converts to mono (n = 1); other
conversions do not occur in this program. -/
def set_channels (s : AudioSegment) (n : Nat) : AudioSegment :=
  if s.channels = n then s
  else if n = 1 then { s with channels := 1, samples := monoMix s.channels s.samples }
  else s

/-- pydub set_frame_rate: resampling to rate `r` by nearest-neighbour
sample selection, the new frame count being the old duration times `r`
rounded to the nearest integer.  Identity when the rate already matches. -/
def set_frame_rate (s : AudioSegment) (r : Nat) : AudioSegment :=
  if s.frame_rate = r ∨ r = 0 then s
  else
    let frames := s.samples.length / s.channels
    let newFrames := (2 * frames * r + s.frame_rate) / (2 * s.frame_rate)
    { s with
      frame_rate := r
      samples := (List.range (newFrames * s.channels)).map (fun i =>
        s.samples.getD (i / s.channels * s.frame_rate / r * s.channels + i % s.channels) 0) }

/-- Message carried by pydub's CouldntDecodeError (modelled). -/
def couldntDecodeMsg : String := "CouldntDecodeError: decoding failed"

/-- WAV encoding in the model: a two-word header (rate, channels) followed
by the sample data.  Models AudioSegment.export(format="wav"). -/
def encodeWav (s : AudioSegment) : Bytes :=
  (s.frame_rate : Int) :: (s.channels : Int) :: s.samples

/-- WAV decoding in the model, i.e. AudioSegment.from_file(format="wav"):
fails (pydub raises CouldntDecodeError) unless a well-formed header with a
positive rate and a positive channel count is present. -/
def decodeWavBytes (b : Bytes) : Except String AudioSegment :=
  match b with
  | r :: c :: rest =>
    if 1 ≤ r ∧ 1 ≤ c then .ok ⟨r.toNat, c.toNat, rest⟩ else .error couldntDecodeMsg
  | _ => .error couldntDecodeMsg

/-- The per-segment normalization the app performs:
seg.set_frame_rate(16000).set_channels(1). -/
def normalizeAS (s : AudioSegment) : AudioSegment :=
  set_channels (set_frame_rate s 16000) 1

/-- pydub AudioSegment addition: appends the sample data.  At every use in
this program both operands are already mono 16 kHz, so pydub's parameter
synchronisation is the identity and the result keeps the left operand's
parameters. -/
def pydubAdd (a b : AudioSegment) : AudioSegment :=
  { frame_rate := a.frame_rate, channels := a.channels, samples := a.samples ++ b.samples }

/-- Loop of concat_segments_wav over the remaining segments:
mixed = seg if mixed is None else mixed + seg. -/
def concatLoop (acc : AudioSegment) : List Bytes → Except String AudioSegment
  | [] => .ok acc
  | b :: rest =>
    match decodeWavBytes b with
    | .error m => .error m
    | .ok seg => concatLoop (pydubAdd acc (normalizeAS seg)) rest

/-- concat_segments_wav from src/app.py: returns b"" on the empty list;
otherwise decodes each segment as WAV, normalizes it to mono 16 kHz, adds
the segments in order and exports the mix as WAV.  A decode failure
(pydub CouldntDecodeError) propagates as an error. -/
def concat_segments_wav (l : List Bytes) : Except String Bytes :=
  match l with
  | [] => .ok []
  | b :: rest =>
    match decodeWavBytes b with
    | .error m => .error m
    | .ok seg =>
      match concatLoop (normalizeAS seg) rest with
      | .error m => .error m
      | .ok mixed => .ok (encodeWav mixed)

/-- Outcome of one call to the Google recognizer through the
speech_recognition library: success, sr.UnknownValueError, sr.RequestError,
or any other exception (which transcribe_with_google does not catch). -/
inductive GoogleOutcome where
  | ok (text : String)
  | unknownValue
  | requestError (msg : String)
  | raise (msg : String)
  deriving DecidableEq

/-- Outcome of one pocketsphinx recognition attempt: success,
sr.UnknownValueError, or any other exception (caught broadly). -/
inductive SphinxOutcome where
  | ok (text : String)
  | unknownValue
  | exn (msg : String)
  deriving DecidableEq

/-- External collaborators: the auto-detecting pydub decoder used for
uploads, and the two recognition backends. -/
structure Env where
  from_file_auto : Bytes → Except String AudioSegment
  google_recognize : Bytes → String → GoogleOutcome
  sphinx_installed : Bool
  sphinx_recognize : Bytes → SphinxOutcome

/-- Ghost trace events: temp-file staging and removal, and backend
invocations. -/
inductive Event where
  | staged (path : Nat)
  | removed (path : Nat)
  | googleCalled
  | sphinxCalled
  deriving DecidableEq

/-- Filesystem and trace state: a counter supplying fresh temp-file names,
the temp files currently on disk, and the ghost event trace (newest
first). -/
structure St where
  nextTmp : Nat
  files : List (Nat × Bytes)
  events : List Event
  deriving DecidableEq

/-- Look a path up in the temp-file table. -/
def lookupFile : List (Nat × Bytes) → Nat → Option Bytes
  | [], _ => none
  | (k, v) :: t, p => if k = p then some v else lookupFile t p

/-- Drop every entry for a path from the temp-file table. -/
def removeFile : List (Nat × Bytes) → Nat → List (Nat × Bytes)
  | [], _ => []
  | (k, v) :: t, p => if k = p then removeFile t p else (k, v) :: removeFile t p

/-- os.remove wrapped in try/except pass: deletes the file if present,
silently succeeds otherwise. -/
def os_remove (p : Nat) (s : St) : St :=
  { s with files := removeFile s.files p, events := .removed p :: s.events }

/-- save_bytes_to_tmp_wav: NamedTemporaryFile(delete=False) picks a fresh
name, the bytes are written there, and the path is returned. -/
def save_bytes_to_tmp_wav (wav : Bytes) (s : St) : Nat × St :=
  (s.nextTmp,
   { nextTmp := s.nextTmp + 1
     files := (s.nextTmp, wav) :: s.files
     events := .staged s.nextTmp :: s.events })

/-- ensure_wav_bytes: decode with auto-detection, normalize to mono
16 kHz, re-export as WAV; any decoder exception is wrapped in a
RuntimeError whose message carries the underlying message. -/
def ensure_wav_bytes (env : Env) (audio : Bytes) : Except String Bytes :=
  match env.from_file_auto audio with
  | .error e => .error ("Impossible de lire/convertir le fichier audio: " ++ e)
  | .ok seg => .ok (encodeWav (normalizeAS seg))

/-- transcribe_with_google: reads the staged file and submits it to the
online service.  UnknownValueError and RequestError are mapped to error
messages; any other exception propagates (modelled as Except.error). -/
def transcribe_with_google (env : Env) (s : St) (path : Nat) (language : String) :
    Except String (Option String × Option String) × St :=
  match lookupFile s.files path with
  | none => (.error "AudioFile: No such file or directory", s)
  | some content =>
    let s1 : St := { s with events := .googleCalled :: s.events }
    match env.google_recognize content language with
    | .ok t => (.ok (some t, none), s1)
    | .unknownValue => (.ok (none, some "Audio incompréhensible pour Google Speech."), s1)
    | .requestError m => (.ok (none, some ("Erreur API Google: " ++ m)), s1)
    | .raise m => (.error m, s1)

/-- transcribe_with_sphinx: returns the install-hint error when
pocketsphinx is missing; otherwise reads the staged file and recognizes
offline, mapping UnknownValueError and every other exception to error
messages.  The language argument is accepted but never used. -/
def transcribe_with_sphinx (env : Env) (s : St) (path : Nat) (language : String) :
    (Option String × Option String) × St :=
  if env.sphinx_installed then
    match lookupFile s.files path with
    | none => ((none, some "Erreur Pocketsphinx: [Errno 2] No such file or directory"), s)
    | some content =>
      let s1 : St := { s with events := .sphinxCalled :: s.events }
      match env.sphinx_recognize content with
      | .ok t => ((some t, none), s1)
      | .unknownValue => ((none, some "Audio incompréhensible pour Sphinx."), s1)
      | .exn m => ((none, some ("Erreur Pocketsphinx: " ++ m)), s1)
  else ((none, some "Pocketsphinx non installé. Fais `pip install pocketsphinx`."), s)

/-- transcribe_audio_bytes from src/app.py: rejects empty audio, converts
to canonical WAV (decode errors become an error result), stages a temp
file, branches on the backend selector, and removes the temp file in a
finally block on every exit path, including a propagating exception. -/
def transcribe_audio_bytes (env : Env) (audio : Bytes) (backend language : String) (s : St) :
    Except String (Option String × Option String) × St :=
  match audio with
  | [] => (.ok (none, some "Aucun audio fourni."), s)
  | _ :: _ =>
    match ensure_wav_bytes env audio with
    | .error m => (.ok (none, some m), s)
    | .ok wav =>
      let staged := save_bytes_to_tmp_wav wav s
      let r :=
        if backend = "Google (online)" then
          transcribe_with_google env staged.2 staged.1 language
        else if backend = "Sphinx (offline)" then
          let t := transcribe_with_sphinx env staged.2 staged.1 language
          (.ok t.1, t.2)
        else (.ok (none, some ("Backend inconnu: " ++ backend)), staged.2)
      (r.1, os_remove staged.1 r.2)

/-- Streamlit session state: recorded segments and the last transcript. -/
structure Session where
  segments : List Bytes
  last_transcript : String
  deriving DecidableEq

/-- The "Supprimer les segments" button handler: ss.segments.clear(). -/
def clear_segments (sess : Session) : Session :=
  { sess with segments := [] }

/-- The upload-transcription button handler: on an error result the
transcript is left alone (st.error is shown); on success it is overwritten
with the text (or "" when the text is None); a propagating exception
aborts the handler before the transcript assignment. -/
def handle_upload (env : Env) (sess : Session) (audio : Bytes) (backend language : String)
    (s : St) : Session × St :=
  match transcribe_audio_bytes env audio backend language s with
  | (.ok (text, none), s1) => ({ sess with last_transcript := text.getD "" }, s1)
  | (.ok (_, some _), s1) => (sess, s1)
  | (.error _, s1) => (sess, s1)

/-- A concrete environment for witnesses: the wav-model decoder, a Google
service that never understands, and no pocketsphinx installed. -/
def envDefault : Env :=
  { from_file_auto := decodeWavBytes
    google_recognize := fun _ _ => .unknownValue
    sphinx_installed := false
    sphinx_recognize := fun _ => .unknownValue }

/-- Initial state: no temp files, empty trace. -/
def st0 : St := { nextTmp := 0, files := [], events := [] }

/-- Initial session: no segments, empty transcript. -/
def sess0 : Session := { segments := [], last_transcript := "" }

/-- Duration of a segment in seconds: whole frames divided by the rate. -/
def duration (s : AudioSegment) : ℚ :=
  ((s.samples.length / s.channels : Nat) : ℚ) / (s.frame_rate : ℚ)

/-- C8: normalize_and_concatenate on the empty segment list returns an
empty byte buffer and no error. -/
theorem concat_empty_ok : concat_segments_wav [] = .ok ([] : Bytes) := rfl

/-- C9: transcribe_with_sphinx ignores its language argument — any two
language tags give identical results, returned state included. -/
theorem sphinx_language_noninterference :
    ∀ (env : Env) (s : St) (path : Nat) (l1 l2 : String),
      transcribe_with_sphinx env s path l1 = transcribe_with_sphinx env s path l2 := by
  intro env s path l1 l2
  rfl

/-- C10: clearing the segment list empties it and leaves the stored last
transcript unchanged. -/
theorem clear_segments_frame :
    ∀ sess : Session,
      (clear_segments sess).segments = [] ∧
      (clear_segments sess).last_transcript = sess.last_transcript :=
  fun _ => ⟨rfl, rfl⟩

/-- C2 fails as literally stated: on empty audio the code returns the
French message "Aucun audio fourni.", not the string "no audio provided". -/
theorem no_audio_message_counterexample :
    (transcribe_audio_bytes envDefault [] "Google (online)" "fr-FR" st0).1 ≠
      .ok (none, some "no audio provided") := by
  decide

/-- C2 (amended: the error message is the code's actual string "Aucun
audio fourni."): for every environment, backend selector and language tag,
empty audio yields (None, "Aucun audio fourni.") and the state is returned
untouched — no temp file is created and no backend is invoked. -/
theorem no_audio_short_circuit :
    ∀ (env : Env) (backend language : String) (s : St),
      transcribe_audio_bytes env [] backend language s =
        (.ok (none, some "Aucun audio fourni."), s) := by
  intro env backend language s
  rfl

/-- Lookup after removal never finds the removed path. -/
theorem lookup_removeFile (l : List (Nat × Bytes)) (p : Nat) :
    lookupFile (removeFile l p) p = none := by
  induction l with
  | nil => rfl
  | cons q t ih =>
    obtain ⟨k, v⟩ := q
    by_cases hk : k = p
    · simp [removeFile, hk, ih]
    · simp [removeFile, lookupFile, hk, ih]

/-- After os.remove the removed path no longer exists on disk. -/
theorem os_remove_lookup (p : Nat) (s : St) : lookupFile (os_remove p s).files p = none :=
  lookup_removeFile s.files p

/-- C1: whenever non-empty audio is successfully normalized, the staged
temporary file no longer exists on disk when transcribe_audio_bytes
returns, on every exit path — success, every returned error, and a
propagating backend exception (all of which the universally quantified
environment ranges over). -/
theorem tmp_file_always_removed (env : Env) (audio : Bytes) (backend language : String)
    (s : St) (w : Bytes) (hb : audio ≠ []) (hw : ensure_wav_bytes env audio = .ok w) :
    lookupFile (transcribe_audio_bytes env audio backend language s).2.files s.nextTmp = none := by
  cases audio with
  | nil => exact absurd rfl hb
  | cons a t =>
    simp only [transcribe_audio_bytes, hw, save_bytes_to_tmp_wav]
    exact os_remove_lookup s.nextTmp _

/-- Witness for C1 at a concrete decodable input and the offline backend. -/
theorem tmp_file_always_removed_witness :
    (([16000, 1, 0] : Bytes) ≠ [] ∧
      ensure_wav_bytes envDefault [16000, 1, 0] = .ok [16000, 1, 0]) ∧
    lookupFile
      (transcribe_audio_bytes envDefault [16000, 1, 0] "Sphinx (offline)" "fr-FR" st0).2.files
      st0.nextTmp = none :=
  ⟨⟨by decide, by decide⟩,
    tmp_file_always_removed envDefault [16000, 1, 0] "Sphinx (offline)" "fr-FR" st0
      [16000, 1, 0] (by decide) (by decide)⟩

/-- C3: a non-empty buffer the codec layer cannot decode yields a result
with no text and an error message wrapping the underlying decoder message,
and the upload handler leaves the session transcript unchanged. -/
theorem decode_failure_dispatch (env : Env) (audio : Bytes) (backend language : String)
    (s : St) (sess : Session) (m : String) (hb : audio ≠ [])
    (hdec : env.from_file_auto audio = .error m) :
    transcribe_audio_bytes env audio backend language s =
      (.ok (none, some ("Impossible de lire/convertir le fichier audio: " ++ m)), s) ∧
    (handle_upload env sess audio backend language s).1.last_transcript =
      sess.last_transcript := by
  cases audio with
  | nil => exact absurd rfl hb
  | cons a t =>
    have hens : ensure_wav_bytes env (a :: t) =
        .error ("Impossible de lire/convertir le fichier audio: " ++ m) := by
      simp [ensure_wav_bytes, hdec]
    have h1 : transcribe_audio_bytes env (a :: t) backend language s =
        (.ok (none, some ("Impossible de lire/convertir le fichier audio: " ++ m)), s) := by
      simp [transcribe_audio_bytes, hens]
    refine ⟨h1, ?_⟩
    simp [handle_upload, h1]

/-- Witness for C3 with a decoder that rejects the buffer. -/
theorem decode_failure_dispatch_witness :
    (([7] : Bytes) ≠ [] ∧
      (Env.mk (fun _ => .error "boom") (fun _ _ => .unknownValue) false
        (fun _ => .unknownValue)).from_file_auto [7] = .error "boom") ∧
    (transcribe_audio_bytes
        (Env.mk (fun _ => .error "boom") (fun _ _ => .unknownValue) false
          (fun _ => .unknownValue)) [7] "Google (online)" "fr-FR" st0 =
      (.ok (none, some ("Impossible de lire/convertir le fichier audio: " ++ "boom")), st0) ∧
    (handle_upload
        (Env.mk (fun _ => .error "boom") (fun _ _ => .unknownValue) false
          (fun _ => .unknownValue)) sess0 [7] "Google (online)" "fr-FR" st0).1.last_transcript =
      sess0.last_transcript) :=
  ⟨⟨by decide, by decide⟩,
    decode_failure_dispatch
      (Env.mk (fun _ => .error "boom") (fun _ _ => .unknownValue) false
        (fun _ => .unknownValue)) [7] "Google (online)" "fr-FR" st0 sess0 "boom"
      (by decide) (by decide)⟩

/-- C4: with non-empty normalizable audio, the offline backend selected
and pocketsphinx not installed, the dispatch returns the
backend-unavailable error, and the event trace shows exactly one staging
and one removal and no recognition call — staging is unconditional once
audio is non-empty. -/
theorem sphinx_unavailable (env : Env) (audio : Bytes) (language : String) (s : St)
    (w : Bytes) (hb : audio ≠ []) (hw : ensure_wav_bytes env audio = .ok w)
    (hins : env.sphinx_installed = false) :
    (transcribe_audio_bytes env audio "Sphinx (offline)" language s).1 =
      .ok (none, some "Pocketsphinx non installé. Fais `pip install pocketsphinx`.") ∧
    (transcribe_audio_bytes env audio "Sphinx (offline)" language s).2.events =
      .removed s.nextTmp :: .staged s.nextTmp :: s.events := by
  cases audio with
  | nil => exact absurd rfl hb
  | cons a t =>
    simp only [transcribe_audio_bytes, hw, save_bytes_to_tmp_wav]
    simp [transcribe_with_sphinx, hins, os_remove]

/-- Witness for C4 with pocketsphinx absent. -/
theorem sphinx_unavailable_witness :
    (([16000, 1, 0] : Bytes) ≠ [] ∧
      ensure_wav_bytes envDefault [16000, 1, 0] = .ok [16000, 1, 0] ∧
      envDefault.sphinx_installed = false) ∧
    ((transcribe_audio_bytes envDefault [16000, 1, 0] "Sphinx (offline)" "fr-FR" st0).1 =
      .ok (none, some "Pocketsphinx non installé. Fais `pip install pocketsphinx`.") ∧
    (transcribe_audio_bytes envDefault [16000, 1, 0] "Sphinx (offline)" "fr-FR" st0).2.events =
      .removed st0.nextTmp :: .staged st0.nextTmp :: st0.events) :=
  ⟨⟨by decide, by decide, by decide⟩,
    sphinx_unavailable envDefault [16000, 1, 0] "fr-FR" st0 [16000, 1, 0]
      (by decide) (by decide) (by decide)⟩

/-- C7 fails as literally stated: the unknown-selector message is the
French "Backend inconnu: Foo", not "unknown backend: Foo". -/
theorem unknown_backend_message_counterexample :
    (transcribe_audio_bytes envDefault [16000, 1, 0] "Foo" "fr-FR" st0).1 ≠
      .ok (none, some "unknown backend: Foo") := by
  decide

/-- C7 (amended: the message is the code's actual French
"Backend inconnu: <name>" with the selector interpolated): any selector
outside the closed enumeration yields that error, and the event trace
shows no recognition call, only staging and removal. -/
theorem unknown_backend_branch (env : Env) (audio : Bytes) (backend language : String)
    (s : St) (w : Bytes) (hb : audio ≠ []) (hw : ensure_wav_bytes env audio = .ok w)
    (hg : backend ≠ "Google (online)") (hs : backend ≠ "Sphinx (offline)") :
    (transcribe_audio_bytes env audio backend language s).1 =
      .ok (none, some ("Backend inconnu: " ++ backend)) ∧
    (transcribe_audio_bytes env audio backend language s).2.events =
      .removed s.nextTmp :: .staged s.nextTmp :: s.events := by
  cases audio with
  | nil => exact absurd rfl hb
  | cons a t =>
    simp only [transcribe_audio_bytes, hw, save_bytes_to_tmp_wav]
    rw [if_neg hg, if_neg hs]
    simp [os_remove]

/-- Witness for C7 at the selector "Foo". -/
theorem unknown_backend_branch_witness :
    (([16000, 1, 0] : Bytes) ≠ [] ∧
      ensure_wav_bytes envDefault [16000, 1, 0] = .ok [16000, 1, 0] ∧
      ("Foo" : String) ≠ "Google (online)" ∧ ("Foo" : String) ≠ "Sphinx (offline)") ∧
    ((transcribe_audio_bytes envDefault [16000, 1, 0] "Foo" "fr-FR" st0).1 =
      .ok (none, some ("Backend inconnu: " ++ "Foo")) ∧
    (transcribe_audio_bytes envDefault [16000, 1, 0] "Foo" "fr-FR" st0).2.events =
      .removed st0.nextTmp :: .staged st0.nextTmp :: st0.events) :=
  ⟨⟨by decide, by decide, by decide, by decide⟩,
    unknown_backend_branch envDefault [16000, 1, 0] "Foo" "fr-FR" st0 [16000, 1, 0]
      (by decide) (by decide) (by decide) (by decide)⟩

/-- The model WAV decoder fails only with the CouldntDecodeError message. -/
theorem decode_error_msg (b : Bytes) (m : String) (h : decodeWavBytes b = .error m) :
    m = couldntDecodeMsg := by
  rcases b with _ | ⟨r, t⟩
  · simp [decodeWavBytes] at h
    exact h.symm
  · rcases t with _ | ⟨c, rest⟩
    · simp [decodeWavBytes] at h
      exact h.symm
    · by_cases hrc : 1 ≤ r ∧ 1 ≤ c
      · rw [show decodeWavBytes (r :: c :: rest) = .ok ⟨r.toNat, c.toNat, rest⟩ from by
          simp [decodeWavBytes, hrc]] at h
        exact Except.noConfusion h
      · rw [show decodeWavBytes (r :: c :: rest) = .error couldntDecodeMsg from by
          simp [decodeWavBytes, hrc]] at h
        injection h with h2
        exact h2.symm

/-- A malformed segment anywhere in the remaining list makes the
concatenation loop fail with the decoder's error. -/
theorem concatLoop_error_of_bad (l : List Bytes) :
    ∀ acc : AudioSegment, (∃ b ∈ l, ∃ m, decodeWavBytes b = .error m) →
      concatLoop acc l = .error couldntDecodeMsg := by
  induction l with
  | nil =>
    rintro acc ⟨b, hb, -⟩
    cases hb
  | cons x t ih =>
    rintro acc ⟨b, hb, m, hm⟩
    rcases List.mem_cons.mp hb with h | h
    · subst h
      rw [decode_error_msg b m hm] at hm
      simp [concatLoop, hm]
    · cases hx : decodeWavBytes x with
      | error m2 =>
        rw [decode_error_msg x m2 hx] at hx
        simp [concatLoop, hx]
      | ok seg =>
        simp only [concatLoop, hx]
        exact ih _ ⟨b, h, m, hm⟩

/-- C6: a segment list containing a malformed (undecodable) segment makes
normalize_and_concatenate fail with the decoder's CouldntDecodeError, not
succeed and not fail with anything else. -/
theorem concat_decode_error (l : List Bytes)
    (hbad : ∃ b ∈ l, ∃ m, decodeWavBytes b = .error m) :
    concat_segments_wav l = .error couldntDecodeMsg := by
  rcases l with _ | ⟨x, t⟩
  · rcases hbad with ⟨b, hb, -⟩
    cases hb
  · rcases hbad with ⟨b, hb, m, hm⟩
    rcases List.mem_cons.mp hb with h | h
    · subst h
      rw [decode_error_msg b m hm] at hm
      simp [concat_segments_wav, hm]
    · cases hx : decodeWavBytes x with
      | error m2 =>
        rw [decode_error_msg x m2 hx] at hx
        simp [concat_segments_wav, hx]
      | ok seg =>
        have hloop := concatLoop_error_of_bad t (normalizeAS seg) ⟨b, h, m, hm⟩
        simp [concat_segments_wav, hx, hloop]

/-- Witness for C6: a list whose single segment has no WAV header. -/
theorem concat_decode_error_witness :
    (∃ b ∈ ([[]] : List Bytes), ∃ m, decodeWavBytes b = .error m) ∧
    concat_segments_wav [[]] = .error couldntDecodeMsg :=
  ⟨⟨[], by decide, couldntDecodeMsg, by decide⟩,
    concat_decode_error [[]] ⟨[], by decide, couldntDecodeMsg, by decide⟩⟩

/-- Down-mixing keeps one sample per complete frame. -/
theorem monoMix_length (c : Nat) (hc : 1 ≤ c) (xs : List Int) :
    (monoMix c xs).length = xs.length / c := by
  have H : ∀ (n : Nat) (ys : List Int), ys.length ≤ n →
      (monoMix c ys).length = ys.length / c := by
    intro n
    induction n with
    | zero =>
      intro ys hlen
      have hsmall : ys.length < c := by omega
      rw [monoMix, dif_pos (Or.inr hsmall)]
      simp [Nat.div_eq_of_lt hsmall]
    | succ n ih =>
      intro ys hlen
      rw [monoMix]
      by_cases hsmall : ys.length < c
      · rw [dif_pos (Or.inr hsmall)]
        simp [Nat.div_eq_of_lt hsmall]
      · have hcond : ¬ (c = 0 ∨ ys.length < c) := by omega
        rw [dif_neg hcond]
        have hdrop : (ys.drop c).length = ys.length - c := List.length_drop c ys
        have hle : (ys.drop c).length ≤ n := by omega
        rw [List.length_cons, ih (ys.drop c) hle, hdrop]
        obtain ⟨m, hm⟩ : ∃ m, ys.length = m + c := ⟨ys.length - c, by omega⟩
        rw [hm]
        simp [Nat.add_sub_cancel, Nat.add_div_right _ (show 0 < c by omega)]
  exact H xs.length xs le_rfl

/-- set_channels never touches the frame rate. -/
theorem set_channels_frame_rate (s : AudioSegment) (n : Nat) :
    (set_channels s n).frame_rate = s.frame_rate := by
  unfold set_channels
  split
  · rfl
  · split <;> rfl

/-- Converting to mono indeed yields one channel. -/
theorem set_channels_one_channels (s : AudioSegment) :
    (set_channels s 1).channels = 1 := by
  unfold set_channels
  split
  next h => exact h
  next h =>
    split
    next => rfl
    next h2 => exact absurd rfl h2

/-- Converting to mono preserves the duration exactly: one averaged sample
remains per complete frame. -/
theorem set_channels_one_duration (s : AudioSegment) (hc : 1 ≤ s.channels) :
    duration (set_channels s 1) = duration s := by
  unfold set_channels
  split
  next h => rfl
  next h =>
    split
    next =>
      unfold duration
      simp only
      rw [monoMix_length s.channels hc s.samples]
      simp [Nat.div_one]
    next h2 => exact absurd rfl h2

/-- set_frame_rate never touches the channel count. -/
theorem set_frame_rate_channels (s : AudioSegment) (r : Nat) :
    (set_frame_rate s r).channels = s.channels := by
  unfold set_frame_rate
  split <;> rfl

/-- Resampling to 16 kHz sets the rate to 16 kHz. -/
theorem set_frame_rate_16000 (s : AudioSegment) :
    (set_frame_rate s 16000).frame_rate = 16000 := by
  unfold set_frame_rate
  split
  next h =>
    rcases h with h | h
    · exact h
    · exact absurd h (by decide)
  next => rfl

/-- Rounding the frame count to the nearest integer moves it by at most
half a frame: the kernel arithmetic fact behind the resampling bound. -/
theorem nat_div_nearest_bound (f r : Nat) (hr : 1 ≤ r) :
    |(((2 * f * 16000 + r) / (2 * r) : Nat) : ℚ) - (f : ℚ) * 16000 / (r : ℚ)| ≤ 1 / 2 := by
  have hrpos : 0 < 2 * r := by omega
  have hdm := Nat.div_add_mod (2 * f * 16000 + r) (2 * r)
  have hmod : (2 * f * 16000 + r) % (2 * r) < 2 * r := Nat.mod_lt _ hrpos
  set q : Nat := (2 * f * 16000 + r) / (2 * r) with hq
  have h1 : 2 * r * q ≤ 2 * f * 16000 + r := by omega
  have h2 : 2 * f * 16000 + r < 2 * r * q + 2 * r := by omega
  have hrQ : (0 : ℚ) < (r : ℚ) := by exact_mod_cast hr
  have h1Q : 2 * (r : ℚ) * (q : ℚ) ≤ 2 * (f : ℚ) * 16000 + (r : ℚ) := by exact_mod_cast h1
  have h2Q : 2 * (f : ℚ) * 16000 + (r : ℚ) < 2 * (r : ℚ) * (q : ℚ) + 2 * (r : ℚ) := by
    exact_mod_cast h2
  rw [abs_le]
  constructor
  · have key : (f : ℚ) * 16000 / (r : ℚ) ≤ (q : ℚ) + 1 / 2 := by
      rw [div_le_iff₀ hrQ]
      nlinarith
    linarith
  · have key : (q : ℚ) - 1 / 2 ≤ (f : ℚ) * 16000 / (r : ℚ) := by
      rw [le_div_iff₀ hrQ]
      nlinarith
    linarith

/-- Resampling to 16 kHz changes the duration by at most half a
16 kHz frame. -/
theorem set_frame_rate_16000_duration (s : AudioSegment) (hr : 1 ≤ s.frame_rate)
    (hc : 1 ≤ s.channels) :
    |duration (set_frame_rate s 16000) - duration s| ≤ 1 / 32000 := by
  by_cases heq : s.frame_rate = 16000
  · rw [show set_frame_rate s 16000 = s from by
      unfold set_frame_rate
      rw [if_pos (Or.inl heq)]]
    simp
  · have hcond : ¬ (s.frame_rate = 16000 ∨ (16000 : Nat) = 0) := by omega
    have hrw : set_frame_rate s 16000 =
        { s with
          frame_rate := 16000
          samples := (List.range ((2 * (s.samples.length / s.channels) * 16000 + s.frame_rate) /
              (2 * s.frame_rate) * s.channels)).map (fun i =>
            s.samples.getD (i / s.channels * s.frame_rate / 16000 * s.channels + i % s.channels) 0) } := by
      unfold set_frame_rate
      rw [if_neg hcond]
    rw [hrw]
    unfold duration
    simp only [List.length_map, List.length_range]
    rw [Nat.mul_div_cancel _ (by omega : 0 < s.channels)]
    have hb := nat_div_nearest_bound (s.samples.length / s.channels) s.frame_rate hr
    have hrQ : ((s.frame_rate : ℚ)) ≠ 0 := by
      have : (0 : ℚ) < (s.frame_rate : ℚ) := by exact_mod_cast hr
      exact ne_of_gt this
    have hkey :
        (((2 * (s.samples.length / s.channels) * 16000 + s.frame_rate) /
            (2 * s.frame_rate) : Nat) : ℚ) / ((16000 : Nat) : ℚ) -
          ((s.samples.length / s.channels : Nat) : ℚ) / (s.frame_rate : ℚ) =
        ((((2 * (s.samples.length / s.channels) * 16000 + s.frame_rate) /
            (2 * s.frame_rate) : Nat) : ℚ) -
          ((s.samples.length / s.channels : Nat) : ℚ) * 16000 / (s.frame_rate : ℚ)) / 16000 := by
      push_cast
      field_simp
      ring
    rw [hkey, abs_div, show |(16000 : ℚ)| = 16000 from by norm_num]
    rw [div_le_iff₀ (by norm_num : (0 : ℚ) < 16000)]
    have : (1 : ℚ) / 32000 * 16000 = 1 / 2 := by norm_num
    rw [this]
    exact hb

/-- Normalization always yields one channel. -/
theorem normalizeAS_channels (s : AudioSegment) : (normalizeAS s).channels = 1 :=
  set_channels_one_channels _

/-- Normalization always yields a 16 kHz rate. -/
theorem normalizeAS_frame_rate (s : AudioSegment) : (normalizeAS s).frame_rate = 16000 := by
  unfold normalizeAS
  rw [set_channels_frame_rate]
  exact set_frame_rate_16000 s

/-- Normalizing a segment keeps its duration within half a 16 kHz frame. -/
theorem normalizeAS_duration (s : AudioSegment) (hr : 1 ≤ s.frame_rate)
    (hc : 1 ≤ s.channels) :
    |duration (normalizeAS s) - duration s| ≤ 1 / 32000 := by
  unfold normalizeAS
  rw [set_channels_one_duration _ (by rw [set_frame_rate_channels]; exact hc)]
  exact set_frame_rate_16000_duration s hr hc

/-- Adding two mono 16 kHz segments adds their durations exactly. -/
theorem pydubAdd_mono_duration (a b : AudioSegment) (ha1 : a.channels = 1)
    (ha2 : a.frame_rate = 16000) (hb1 : b.channels = 1) (hb2 : b.frame_rate = 16000) :
    duration (pydubAdd a b) = duration a + duration b := by
  unfold pydubAdd duration
  simp only [ha1, hb1, ha2, hb2, Nat.div_one, List.length_append]
  push_cast
  ring

/-- A successfully decoded WAV has a positive rate and channel count. -/
theorem decode_ok_pos (b : Bytes) (s : AudioSegment) (h : decodeWavBytes b = .ok s) :
    1 ≤ s.frame_rate ∧ 1 ≤ s.channels := by
  rcases b with _ | ⟨r, t⟩
  · rw [show decodeWavBytes [] = .error couldntDecodeMsg from rfl] at h
    exact Except.noConfusion h
  · rcases t with _ | ⟨c, rest⟩
    · rw [show decodeWavBytes [r] = .error couldntDecodeMsg from rfl] at h
      exact Except.noConfusion h
    · by_cases hrc : 1 ≤ r ∧ 1 ≤ c
      · rw [show decodeWavBytes (r :: c :: rest) = .ok ⟨r.toNat, c.toNat, rest⟩ from by
          simp [decodeWavBytes, hrc]] at h
        injection h with h2
        subst h2
        refine ⟨?_, ?_⟩ <;> simp <;> omega
      · rw [show decodeWavBytes (r :: c :: rest) = .error couldntDecodeMsg from by
          simp [decodeWavBytes, hrc]] at h
        exact Except.noConfusion h

/-- C5: concatenating two decodable WAV segments yields the first
segment's normalized (mono 16 kHz) samples immediately followed by the
second's — no gap inserted — and the total duration is within one 16 kHz
sample frame of the sum of the input durations. -/
theorem concat_two_segments (b1 b2 : Bytes) (s1 s2 : AudioSegment)
    (h1 : decodeWavBytes b1 = .ok s1) (h2 : decodeWavBytes b2 = .ok s2) :
    ∃ out : AudioSegment,
      concat_segments_wav [b1, b2] = .ok (encodeWav out) ∧
      out.samples = (normalizeAS s1).samples ++ (normalizeAS s2).samples ∧
      |duration out - (duration s1 + duration s2)| ≤ 1 / 16000 := by
  obtain ⟨hr1, hc1⟩ := decode_ok_pos b1 s1 h1
  obtain ⟨hr2, hc2⟩ := decode_ok_pos b2 s2 h2
  refine ⟨pydubAdd (normalizeAS s1) (normalizeAS s2), ?_, rfl, ?_⟩
  · simp [concat_segments_wav, concatLoop, h1, h2]
  · rw [pydubAdd_mono_duration _ _ (normalizeAS_channels s1) (normalizeAS_frame_rate s1)
      (normalizeAS_channels s2) (normalizeAS_frame_rate s2)]
    have e1 := normalizeAS_duration s1 hr1 hc1
    have e2 := normalizeAS_duration s2 hr2 hc2
    have heq : duration (normalizeAS s1) + duration (normalizeAS s2) -
        (duration s1 + duration s2) =
        (duration (normalizeAS s1) - duration s1) + (duration (normalizeAS s2) - duration s2) := by
      ring
    have habs := abs_add (duration (normalizeAS s1) - duration s1)
      (duration (normalizeAS s2) - duration s2)
    rw [heq]
    linarith

/-- Witness for C5 on two one-sample mono 16 kHz segments. -/
theorem concat_two_segments_witness :
    (decodeWavBytes [16000, 1, 5] = .ok ⟨16000, 1, [5]⟩ ∧
      decodeWavBytes [16000, 1, 7] = .ok ⟨16000, 1, [7]⟩) ∧
    (∃ out : AudioSegment,
      concat_segments_wav [[16000, 1, 5], [16000, 1, 7]] = .ok (encodeWav out) ∧
      out.samples = (normalizeAS ⟨16000, 1, [5]⟩).samples ++
        (normalizeAS ⟨16000, 1, [7]⟩).samples ∧
      |duration out - (duration ⟨16000, 1, [5]⟩ + duration ⟨16000, 1, [7]⟩)| ≤ 1 / 16000) :=
  ⟨⟨by decide, by decide⟩,
    concat_two_segments [16000, 1, 5] [16000, 1, 7] ⟨16000, 1, [5]⟩ ⟨16000, 1, [7]⟩
      (by decide) (by decide)⟩
